/-
  Verification of the sysgomon sampling-to-visualization pipeline, a shallow
  embedding of src/main.go.  Machine float64 values are modelled as rationals;
  the uint64 byte counters are naturals with explicit wrap-around modulo 2^64.
  Line numbers in the doc comments refer to src/main.go.
-/
import Mathlib

namespace SysGoMon

/-- Lines 394-395 and 431-432: the per-second rate of a cumulative uint64
counter.  Go subtracts the two uint64 readings (wrapping modulo 2^64),
converts the difference to float64 and divides by the elapsed duration in
seconds.  There is no guard on the sign of the duration. -/
def rateBytesPerSec (prevBytes currBytes : Nat) (duration : ℚ) : ℚ :=
  (((currBytes + 2 ^ 64 - prevBytes % 2 ^ 64) % 2 ^ 64 : ℕ) : ℚ) / duration

/-- Lines 713-718: the `max` helper on float64. -/
def goMax (a b : ℚ) : ℚ := if a > b then a else b

/-- Lines 720-725: the `abs` helper on float64. -/
def goAbs (x : ℚ) : ℚ := if x < 0 then -x else x

/-- Lines 699-711: `maxInSlice` returns 0 on the empty slice, otherwise starts
from the first element and scans the whole slice for a larger one. -/
def maxInSlice : List ℚ → ℚ
  | [] => 0
  | v :: vs => (v :: vs).foldl (fun m x => if x > m then x else m) v

/-- Lines 607-612 (and 656-661), one buffer: shift every element one position
toward the head (`a[i] = a[i+1]` for `i < len-1`), which duplicates the last
element; the caller then overwrites the last slot. -/
def shiftData : List ℚ → List ℚ
  | [] => []
  | v :: vs => vs ++ [vs.getLastD v]

/-- Lines 614-617 (and 663-666), one buffer: write `v` at the last index.
(On an empty slice the Go code would panic; the buffers always have length at
least 100.) -/
def addData (l : List ℚ) (v : ℚ) : List ℚ := l.set (l.length - 1) v

/-- One append of the sliding history buffer: shift left, then write the new
sample at the tail. -/
def appendSample (l : List ℚ) (v : ℚ) : List ℚ := addData (shiftData l) v

/-- Lines 157-162. -/
structure NetworkData where
  RxData : List ℚ
  TxData : List ℚ
  MaxValue : ℚ
deriving Repr, DecidableEq

/-- Lines 164-169. -/
structure DiskData where
  ReadData : List ℚ
  WriteData : List ℚ
  MaxValue : ℚ
deriving Repr, DecidableEq

/-- Lines 607-612. -/
def shiftNetworkData (nd : NetworkData) : NetworkData :=
  { nd with RxData := shiftData nd.RxData, TxData := shiftData nd.TxData }

/-- Lines 614-617. -/
def addNetworkData (nd : NetworkData) (rxMbps txMbps : ℚ) : NetworkData :=
  { nd with RxData := addData nd.RxData rxMbps, TxData := addData nd.TxData txMbps }

/-- Lines 619-630: adaptive scale update for the network graph. -/
def updateNetworkMaxValue (nd : NetworkData) : NetworkData :=
  let currentMax := goMax (maxInSlice nd.RxData) (maxInSlice nd.TxData)
  let m :=
    if currentMax > nd.MaxValue then
      nd.MaxValue + (currentMax - nd.MaxValue) * (3 / 10)
    else if currentMax < nd.MaxValue * (1 / 2) ∧ nd.MaxValue > 1 then
      nd.MaxValue - (nd.MaxValue - currentMax) * (1 / 20)
    else nd.MaxValue
  { nd with MaxValue := if m < 1 / 10 then 1 / 10 else m }

/-- Lines 656-661. -/
def shiftDiskData (dd : DiskData) : DiskData :=
  { dd with ReadData := shiftData dd.ReadData, WriteData := shiftData dd.WriteData }

/-- Lines 663-666. -/
def addDiskData (dd : DiskData) (readMBps writeMBps : ℚ) : DiskData :=
  { dd with ReadData := addData dd.ReadData readMBps,
            WriteData := addData dd.WriteData writeMBps }

/-- Lines 668-679: adaptive scale update for the disk graph. -/
def updateDiskMaxValue (dd : DiskData) : DiskData :=
  let currentMax := goMax (maxInSlice dd.ReadData) (maxInSlice dd.WriteData)
  let m :=
    if currentMax > dd.MaxValue then
      dd.MaxValue + (currentMax - dd.MaxValue) * (3 / 10)
    else if currentMax < dd.MaxValue * (1 / 2) ∧ dd.MaxValue > 1 then
      dd.MaxValue - (dd.MaxValue - currentMax) * (1 / 20)
    else dd.MaxValue
  { dd with MaxValue := if m < 1 / 10 then 1 / 10 else m }

/-- Lines 600-605 restricted to state (the display call at line 604 only hands
the updated data to the rendering surface). -/
def updateNetworkGraph (nd : NetworkData) (rxMbps txMbps : ℚ) : NetworkData :=
  updateNetworkMaxValue (addNetworkData (shiftNetworkData nd) rxMbps txMbps)

/-- Lines 649-654 restricted to state. -/
def updateDiskGraph (dd : DiskData) (readMBps writeMBps : ℚ) : DiskData :=
  updateDiskMaxValue (addDiskData (shiftDiskData dd) readMBps writeMBps)

/-- Lines 150-155: the animation state of one gauge. -/
structure CPUGauge where
  CurrentPercent : ℚ
  TargetPercent : ℚ
deriving Repr, DecidableEq

/-- Lines 570-580: one animation step of a single gauge value: compute
`diff = target - current`; snap to the target when `abs diff < 0.5`,
otherwise advance by `diff * speed`. -/
def animStep (speed target current : ℚ) : ℚ :=
  if goAbs (target - current) < 1 / 2 then target
  else current + (target - current) * speed

/-- Lines 568-598 restricted to animation state (color banding and rendering
act only on the display). -/
def animateCPUGauges (gauges : List CPUGauge) (speed : ℚ) : List CPUGauge :=
  gauges.map fun g =>
    { g with CurrentPercent := animStep speed g.TargetPercent g.CurrentPercent }

/-- Lines 111-116: commands are truncated to `width - 3` characters plus an
ellipsis when they exceed the column width.  `width` is a Go int; when
`len(cmd) > width` and `width < 3` the slice `cmd[:width-3]` has a negative
bound and the Go runtime panics, modelled by `none`. -/
def formatCommand (cmd : List Char) (width : Int) : Option (List Char) :=
  if (cmd.length : Int) > width then
    if 0 ≤ width - 3 then some (cmd.take (width - 3).toNat ++ ['.', '.', '.'])
    else none
  else some cmd

/-- Lines 467-539 restricted to gauge animation state: one average gauge plus
one gauge per core, every one created with current and target percent zero. -/
def createCPUGauges (cpuCount : Nat) : List CPUGauge :=
  { CurrentPercent := 0, TargetPercent := 0 } ::
    (List.range cpuCount).map fun _ => { CurrentPercent := 0, TargetPercent := 0 }

/-- Lines 329-348 (and 351-364), one buffer: on resize, when the new data point
count exceeds the current length, allocate that many zeros and copy the old
buffer into the tail; otherwise leave the buffer alone (capacity never
shrinks). -/
def growData (dataPointCount : Nat) (old : List ℚ) : List ℚ :=
  if old.length < dataPointCount then
    List.replicate (dataPointCount - old.length) 0 ++ old
  else old

/-- The mutable state touched by the resize branch. -/
structure MonitorState where
  cpuGauges : List CPUGauge
  netData : NetworkData
  diskData : DiskData
deriving Repr, DecidableEq

/-- Lines 316-372, the resize branch of the event loop restricted to gauge and
history state: the gauges are recreated from scratch by `createCPUGauges`
(line 323) while the four history buffers are grown, never shrunk, to
`max(termWidth, 100)` data points (lines 329-364). -/
def handleResize (termWidth cpuCount : Nat) (s : MonitorState) : MonitorState :=
  let dataPointCount := if termWidth < 100 then 100 else termWidth
  { cpuGauges := createCPUGauges cpuCount
    netData := { RxData := growData dataPointCount s.netData.RxData
                 TxData := growData dataPointCount s.netData.TxData
                 MaxValue := s.netData.MaxValue }
    diskData := { ReadData := growData dataPointCount s.diskData.ReadData
                  WriteData := growData dataPointCount s.diskData.WriteData
                  MaxValue := s.diskData.MaxValue } }

/-- The two cumulative counters of gopsutil `net.IOCountersStat` read by the
program. -/
structure NetIOCountersStat where
  BytesRecv : Nat
  BytesSent : Nat
deriving Repr, DecidableEq

/-- Lines 276-281: the baseline network read logs on error but then
unconditionally indexes element 0 of the returned slice; on error the slice is
empty, so the index is out of range and the program panics during
startup (`none` models that panic). -/
def baselineNetRead (res : Except String (List NetIOCountersStat)) :
    Option NetIOCountersStat :=
  (match res with
   | Except.ok counters => counters
   | Except.error _ => []).head?

/-- The network-subsystem state mutated by one tick: history and scale, the
displayed text (modelled by the Sprintf arguments of lines 401-407: the two
rates and the two cumulative totals), the previous snapshot and the last
update time. -/
structure NetworkSubsystem where
  netData : NetworkData
  netStatsText : ℚ × ℚ × Nat × Nat
  prevNetIOStats : NetIOCountersStat
  lastNetworkUpdate : ℚ
deriving Repr, DecidableEq

/-- Lines 390-420: the network branch of one timer tick.  On a collection
error the whole block is skipped and every field is left unchanged; on success
(`IOCounters(false)` yields one aggregated entry) the rates are computed, the
display text is rebuilt, history and scale advance, and the snapshot and
timestamp are replaced. -/
def networkTick (now : ℚ) (reading : Except String NetIOCountersStat)
    (s : NetworkSubsystem) : NetworkSubsystem :=
  match reading with
  | Except.error _ => s
  | Except.ok cur =>
    let duration := now - s.lastNetworkUpdate
    let rxMbps := rateBytesPerSec s.prevNetIOStats.BytesRecv cur.BytesRecv duration
      * 8 / 1000000
    let txMbps := rateBytesPerSec s.prevNetIOStats.BytesSent cur.BytesSent duration
      * 8 / 1000000
    { netData := updateNetworkGraph s.netData rxMbps txMbps
      netStatsText := (rxMbps, txMbps, cur.BytesRecv, cur.BytesSent)
      prevNetIOStats := cur
      lastNetworkUpdate := now }

/-- The two cumulative counters of gopsutil `disk.IOCountersStat` read by the
program. -/
structure DiskIOCountersStat where
  ReadBytes : Nat
  WriteBytes : Nat
deriving Repr, DecidableEq

/-- Line 445: `prevDiskIOStats[name] = stat` on a map modelled as an
association list. -/
def upsertStat (m : List (String × DiskIOCountersStat)) (name : String)
    (stat : DiskIOCountersStat) : List (String × DiskIOCountersStat) :=
  if (m.lookup name).isSome then
    m.map fun p => if p.1 == name then (name, stat) else p
  else m ++ [(name, stat)]

/-- The disk-subsystem state mutated by one tick: history and scale, the
displayed per-device text (modelled by the Sprintf arguments of lines 440-443),
the previous per-device snapshot map and the last update time. -/
structure DiskSubsystem where
  diskData : DiskData
  diskStatsText : List (String × ℚ × ℚ)
  prevDiskIOStats : List (String × DiskIOCountersStat)
  lastDiskUpdate : ℚ
deriving Repr, DecidableEq

/-- Lines 422-458: the disk branch of one timer tick.  On a collection error
the whole block is skipped and every field is left unchanged; on success the
per-device rates of every device also present in the previous snapshot are
computed and summed, the snapshot map is upserted for every current device,
and history, scale and timestamp advance.  Go map iteration order is modelled
by the list order of the reading; the totals are sums, so the order does not
affect them. -/
def diskTick (now : ℚ)
    (reading : Except String (List (String × DiskIOCountersStat)))
    (s : DiskSubsystem) : DiskSubsystem :=
  match reading with
  | Except.error _ => s
  | Except.ok counters =>
    let duration := now - s.lastDiskUpdate
    let folded := counters.foldl
      (fun (acc : ℚ × ℚ × List (String × ℚ × ℚ) × List (String × DiskIOCountersStat))
           (entry : String × DiskIOCountersStat) =>
        match acc.2.2.2.lookup entry.1 with
        | some prev =>
          let readMBps := rateBytesPerSec prev.ReadBytes entry.2.ReadBytes duration
            / 1024 / 1024
          let writeMBps := rateBytesPerSec prev.WriteBytes entry.2.WriteBytes duration
            / 1024 / 1024
          (acc.1 + readMBps, acc.2.1 + writeMBps,
           acc.2.2.1 ++ [(entry.1, readMBps, writeMBps)],
           upsertStat acc.2.2.2 entry.1 entry.2)
        | none =>
          (acc.1, acc.2.1, acc.2.2.1, upsertStat acc.2.2.2 entry.1 entry.2))
      (0, 0, [], s.prevDiskIOStats)
    { diskData := updateDiskGraph s.diskData folded.1 folded.2.1
      diskStatsText := folded.2.2.1
      prevDiskIOStats := folded.2.2.2
      lastDiskUpdate := now }

/-- A sample collection-error message used in concrete witnesses. -/
def sampleErr : String := "counters unavailable"

/-! ### Helper lemmas -/

theorem growData_suffix (n : Nat) (l : List ℚ) : l.IsSuffix (growData n l) := by
  unfold growData
  split
  · exact ⟨_, rfl⟩
  · exact List.suffix_refl l

theorem createCPUGauges_eq_replicate (n : Nat) :
    createCPUGauges n =
      List.replicate (n + 1) ({ CurrentPercent := 0, TargetPercent := 0 } : CPUGauge) := by
  rw [createCPUGauges, List.replicate_succ]
  congr 1
  induction n with
  | zero => rfl
  | succ k ih =>
    rw [List.range_succ, List.map_append, ih, List.map_singleton,
      ← List.replicate_succ']

/-! ### C1: rate computation -/

/-- C1 (counterexample): the claim states that the rate computation returns 0
when the elapsed duration is non-positive, but the code divides
unconditionally: with previous counter 0, current counter 1000 and duration
-1 second the computed rate is -1000, not 0. -/
theorem rate_negative_duration_counterexample :
    rateBytesPerSec 0 1000 (-1) = -1000 ∧ rateBytesPerSec 0 1000 (-1) ≠ 0 := by
  norm_num [rateBytesPerSec]

/-- C1 (amended): for every positive duration the rate is
`(curr - prev) / duration` (counters within uint64 range, current at least
previous); but for a negative duration there is no guard returning 0: the
same division is performed and the result is negative (for a zero duration
the float64 division yields an IEEE infinity or NaN, likewise not 0). -/
theorem rateBytesPerSec_spec (p c : Nat) (d : ℚ) (hpc : p ≤ c) (hc : c < 2 ^ 64)
    (_hd : 0 < d) :
    rateBytesPerSec p c d = ((c : ℚ) - (p : ℚ)) / d ∧
    ∀ d2 : ℚ, d2 < 0 → p < c → rateBytesPerSec p c d2 < 0 := by
  have hwrap : (c + 2 ^ 64 - p % 2 ^ 64) % 2 ^ 64 = c - p := by
    have hp : p % 2 ^ 64 = p := Nat.mod_eq_of_lt (lt_of_le_of_lt hpc hc)
    rw [hp]
    omega
  constructor
  · rw [rateBytesPerSec, hwrap, Nat.cast_sub hpc]
  · intro d2 hd2 hlt
    rw [rateBytesPerSec, hwrap]
    apply div_neg_of_pos_of_neg _ hd2
    exact_mod_cast Nat.sub_pos_of_lt hlt

theorem rateBytesPerSec_spec_witness : rateBytesPerSec 1000 2000 1 = 1000 := by
  have h := rateBytesPerSec_spec 1000 2000 1 (by norm_num) (by norm_num) (by norm_num)
  rw [h.1]
  norm_num

/-! ### C2: collection failure -/

/-- C2: on a tick whose network or disk collection call fails, the subsystem
state (history buffers, scale, displayed text, previous snapshot, timestamp)
is returned unchanged; but the failure of the very first baseline network
read leaves the counter slice empty and the unconditional index `[0]` at line
280 cannot complete (the Go runtime panics, so the program terminates). -/
theorem collection_failure_behavior (e : String) :
    (∀ (now : ℚ) (s : NetworkSubsystem), networkTick now (Except.error e) s = s) ∧
    (∀ (now : ℚ) (s : DiskSubsystem), diskTick now (Except.error e) s = s) ∧
    baselineNetRead (Except.error e) = none :=
  ⟨fun _ _ => rfl, fun _ _ => rfl, rfl⟩

theorem collection_failure_behavior_witness :
    (networkTick 1 (Except.error sampleErr)
        { netData := { RxData := [0], TxData := [0], MaxValue := 1 / 10 }
          netStatsText := (0, 0, 0, 0)
          prevNetIOStats := { BytesRecv := 0, BytesSent := 0 }
          lastNetworkUpdate := 0 } =
      { netData := { RxData := [0], TxData := [0], MaxValue := 1 / 10 }
        netStatsText := (0, 0, 0, 0)
        prevNetIOStats := { BytesRecv := 0, BytesSent := 0 }
        lastNetworkUpdate := 0 }) ∧
    baselineNetRead (Except.error sampleErr) = none := by
  have h := collection_failure_behavior sampleErr
  exact ⟨h.1 1 _, h.2.2⟩

/-! ### C4: growing a history buffer -/

/-- C4: growing a buffer of length `C` to `newCap > C` yields length `newCap`,
with the old contents as the tail and `newCap - C` zeros in front; growing a
length-100 buffer of 5.0 to 200 gives 100 zeros then 100 fives; and when the
required capacity does not exceed the current length the buffer is left
unchanged (capacity never shrinks). -/
theorem grow_preserves_history (C newCap : Nat) (old : List ℚ)
    (hlen : old.length = C) (hgrow : C < newCap) :
    (growData newCap old).length = newCap ∧
    (growData newCap old).drop (newCap - C) = old ∧
    (growData newCap old).take (newCap - C) = List.replicate (newCap - C) (0 : ℚ) ∧
    growData 200 (List.replicate 100 (5 : ℚ)) =
      List.replicate 100 (0 : ℚ) ++ List.replicate 100 (5 : ℚ) ∧
    ∀ (cap2 : Nat) (l : List ℚ), cap2 ≤ l.length → growData cap2 l = l := by
  subst hlen
  have hcond : old.length < newCap := hgrow
  refine ⟨?_, ?_, ?_, ?_, ?_⟩
  · rw [growData, if_pos hcond]
    simp [Nat.sub_add_cancel hcond.le]
  · rw [growData, if_pos hcond]
    have h := List.drop_left (List.replicate (newCap - old.length) (0 : ℚ)) old
    rwa [List.length_replicate] at h
  · rw [growData, if_pos hcond]
    have h := List.take_left (List.replicate (newCap - old.length) (0 : ℚ)) old
    rwa [List.length_replicate] at h
  · rw [growData, if_pos (by simp)]
    simp
  · intro cap2 l h
    rw [growData, if_neg (by omega)]

theorem grow_preserves_history_witness :
    (growData 150 [1, 2, 3] : List ℚ).length = 150 ∧
    (growData 150 [1, 2, 3] : List ℚ).drop (150 - 3) = [1, 2, 3] := by
  have h := grow_preserves_history 3 150 [1, 2, 3] (by norm_num) (by norm_num)
  exact ⟨h.1, h.2.1⟩

/-! ### C9: command truncation -/

/-- C9: when the command exceeds the column width, a width of at least 3
yields the first `width - 3` characters followed by three dots (total length
exactly `width`), while a width below 3 makes the slice bound negative and
the operation cannot complete; commands that fit are returned unchanged. -/
theorem formatCommand_spec (cmd : List Char) (w : Int)
    (hlong : (cmd.length : Int) > w) :
    (3 ≤ w →
      formatCommand cmd w = some (cmd.take (w - 3).toNat ++ ['.', '.', '.']) ∧
      ((cmd.take (w - 3).toNat ++ ['.', '.', '.']).length : Int) = w) ∧
    (w < 3 → formatCommand cmd w = none) ∧
    (∀ (cmd2 : List Char) (w2 : Int), (cmd2.length : Int) ≤ w2 →
      formatCommand cmd2 w2 = some cmd2) := by
  refine ⟨fun h3 => ⟨?_, ?_⟩, fun hlt => ?_, fun cmd2 w2 hle => ?_⟩
  · rw [formatCommand, if_pos hlong, if_pos (by omega)]
  · simp only [List.length_append, List.length_take, List.length_cons,
      List.length_nil]
    omega
  · rw [formatCommand, if_pos hlong, if_neg (by omega)]
  · rw [formatCommand, if_neg (by omega)]

theorem formatCommand_spec_witness :
    formatCommand ['a', 'b', 'c', 'd', 'e'] 4 = some ['a', '.', '.', '.'] ∧
    formatCommand ['a', 'b', 'c', 'd', 'e'] 2 = none ∧
    formatCommand ['a', 'b'] 5 = some ['a', 'b'] := by
  have h1 := formatCommand_spec ['a', 'b', 'c', 'd', 'e'] 4 (by norm_num)
  have h2 := formatCommand_spec ['a', 'b', 'c', 'd', 'e'] 2 (by norm_num)
  refine ⟨?_, h2.2.1 (by norm_num), h1.2.2 ['a', 'b'] 5 (by norm_num)⟩
  rw [(h1.1 (by norm_num)).1]
  rfl

/-! ### C10: resize resets gauge animation state -/

/-- C10: the resize branch recreates every gauge (per-core and aggregate) with
current and target percent zero, while the four history buffers keep their
old contents as a tail (grown, never discarded) and both scale states are
preserved. -/
theorem resize_resets_gauges (termWidth cpuCount : Nat) (s : MonitorState) :
    (handleResize termWidth cpuCount s).cpuGauges =
      List.replicate (cpuCount + 1)
        ({ CurrentPercent := 0, TargetPercent := 0 } : CPUGauge) ∧
    s.netData.RxData.IsSuffix (handleResize termWidth cpuCount s).netData.RxData ∧
    s.netData.TxData.IsSuffix (handleResize termWidth cpuCount s).netData.TxData ∧
    s.diskData.ReadData.IsSuffix (handleResize termWidth cpuCount s).diskData.ReadData ∧
    s.diskData.WriteData.IsSuffix (handleResize termWidth cpuCount s).diskData.WriteData ∧
    (handleResize termWidth cpuCount s).netData.MaxValue = s.netData.MaxValue ∧
    (handleResize termWidth cpuCount s).diskData.MaxValue = s.diskData.MaxValue :=
  ⟨createCPUGauges_eq_replicate cpuCount, growData_suffix _ _, growData_suffix _ _,
   growData_suffix _ _, growData_suffix _ _, rfl, rfl⟩

/-! ### C5: appending to a history buffer -/

theorem set_last_append {α : Type} (xs : List α) (a v : α) :
    (xs ++ [a]).set xs.length v = xs ++ [v] := by
  induction xs with
  | nil => rfl
  | cons x xs ih => simp [ih]

theorem appendSample_eq (l : List ℚ) (v : ℚ) (h : l ≠ []) :
    appendSample l v = l.tail ++ [v] := by
  cases l with
  | nil => exact absurd rfl h
  | cons x xs =>
    simp only [appendSample, shiftData, addData, List.tail_cons]
    have hlen : (xs ++ [xs.getLastD x]).length - 1 = xs.length := by simp
    rw [hlen, set_last_append]

theorem foldl_appendSample (C : Nat) (vs : List ℚ) (hC : vs.length ≤ C) :
    vs.foldl appendSample (List.replicate C (0 : ℚ)) =
      List.replicate (C - vs.length) (0 : ℚ) ++ vs := by
  induction vs using List.reverseRecOn with
  | nil => simp
  | append_singleton vs v ih =>
    have hvs : vs.length ≤ C := by simp at hC; omega
    rw [List.foldl_append, ih hvs]
    simp only [List.foldl_cons, List.foldl_nil]
    have hne : (List.replicate (C - vs.length) (0 : ℚ) ++ vs) ≠ [] := by
      intro hnil
      have := congrArg List.length hnil
      simp at hC this
      omega
    rw [appendSample_eq _ _ hne]
    obtain ⟨k, hk⟩ : ∃ k, C - vs.length = k + 1 := by
      refine ⟨C - vs.length - 1, ?_⟩
      simp at hC
      omega
    have hk2 : C - (vs ++ [v]).length = k := by simp at hC ⊢; omega
    rw [hk, hk2, List.replicate_succ, List.cons_append, List.tail_cons,
      List.append_assoc]

/-- C5: starting from an all-zero buffer of capacity `C` and appending
`v_1 .. v_N` with `N ≤ C`, the buffer ends with `v_1 .. v_N` in order,
preceded by `C - N` zeros; each single append on a nonempty buffer keeps the
length, drops the head (preserving the recency order of older samples) and
places the new value at the last index; and the per-struct shift/add pair of
the source is exactly this append on each direction. -/
theorem history_append_spec (C : Nat) (vs : List ℚ) (hC : vs.length ≤ C) :
    vs.foldl appendSample (List.replicate C (0 : ℚ)) =
      List.replicate (C - vs.length) (0 : ℚ) ++ vs ∧
    (∀ (l : List ℚ) (v : ℚ), l ≠ [] →
      appendSample l v = l.tail ++ [v] ∧
      (appendSample l v).length = l.length ∧
      (appendSample l v).getLast? = some v) ∧
    (∀ (nd : NetworkData) (rxMbps txMbps : ℚ),
      (addNetworkData (shiftNetworkData nd) rxMbps txMbps).RxData =
        appendSample nd.RxData rxMbps ∧
      (addNetworkData (shiftNetworkData nd) rxMbps txMbps).TxData =
        appendSample nd.TxData txMbps) ∧
    (∀ (dd : DiskData) (readMBps writeMBps : ℚ),
      (addDiskData (shiftDiskData dd) readMBps writeMBps).ReadData =
        appendSample dd.ReadData readMBps ∧
      (addDiskData (shiftDiskData dd) readMBps writeMBps).WriteData =
        appendSample dd.WriteData writeMBps) := by
  refine ⟨foldl_appendSample C vs hC, fun l v h => ⟨appendSample_eq l v h, ?_, ?_⟩,
    fun nd rx tx => ⟨rfl, rfl⟩, fun dd r w => ⟨rfl, rfl⟩⟩
  · rw [appendSample_eq l v h]
    cases l with
    | nil => exact absurd rfl h
    | cons x xs => simp
  · rw [appendSample_eq l v h, List.getLast?_concat]

theorem history_append_spec_witness :
    ([4, 7] : List ℚ).foldl appendSample (List.replicate 5 (0 : ℚ)) =
      [0, 0, 0, 4, 7] := by
  have h := history_append_spec 5 [4, 7] (by norm_num)
  rw [h.1]
  rfl

/-! ### C6: adaptive scale floor and upward monotonicity -/

theorem clamp_floor (m : ℚ) : 1 / 10 ≤ if m < 1 / 10 then (1 : ℚ) / 10 else m := by
  split
  · exact le_refl _
  · next h => exact not_lt.mp h

theorem clamp_mono_of_le (M m : ℚ) (h : M ≤ m) :
    M ≤ if m < 1 / 10 then (1 : ℚ) / 10 else m := by
  split
  · next hlt => linarith
  · exact h

theorem updateNetworkMaxValue_floor (nd : NetworkData) :
    1 / 10 ≤ (updateNetworkMaxValue nd).MaxValue := by
  simp only [updateNetworkMaxValue]
  exact clamp_floor _

theorem updateDiskMaxValue_floor (dd : DiskData) :
    1 / 10 ≤ (updateDiskMaxValue dd).MaxValue := by
  simp only [updateDiskMaxValue]
  exact clamp_floor _

theorem updateNetworkMaxValue_mono (nd : NetworkData)
    (h : nd.MaxValue < goMax (maxInSlice nd.RxData) (maxInSlice nd.TxData)) :
    nd.MaxValue ≤ (updateNetworkMaxValue nd).MaxValue := by
  simp only [updateNetworkMaxValue]
  apply clamp_mono_of_le
  split
  · next hgt => nlinarith
  · next hgt => exact absurd h hgt

theorem updateDiskMaxValue_mono (dd : DiskData)
    (h : dd.MaxValue < goMax (maxInSlice dd.ReadData) (maxInSlice dd.WriteData)) :
    dd.MaxValue ≤ (updateDiskMaxValue dd).MaxValue := by
  simp only [updateDiskMaxValue]
  apply clamp_mono_of_le
  split
  · next hgt => nlinarith
  · next hgt => exact absurd h hgt

/-- C6: across any sequence of per-tick scale updates starting at or above the
0.1 floor, `MaxValue` never drops below 0.1 (indeed every single update lands
at or above 0.1 unconditionally), and on a tick whose observed peak exceeds
the current maximum the update does not decrease it; both for the network and
the disk tracker. -/
theorem scale_floor_spec (obs : List (List ℚ × List ℚ)) (nd0 : NetworkData)
    (dd0 : DiskData) (hn : 1 / 10 ≤ nd0.MaxValue) (hd : 1 / 10 ≤ dd0.MaxValue) :
    1 / 10 ≤ (obs.foldl
        (fun nd o => updateNetworkMaxValue { nd with RxData := o.1, TxData := o.2 })
        nd0).MaxValue ∧
    1 / 10 ≤ (obs.foldl
        (fun dd o => updateDiskMaxValue { dd with ReadData := o.1, WriteData := o.2 })
        dd0).MaxValue ∧
    (∀ nd : NetworkData, 1 / 10 ≤ (updateNetworkMaxValue nd).MaxValue) ∧
    (∀ dd : DiskData, 1 / 10 ≤ (updateDiskMaxValue dd).MaxValue) ∧
    (∀ nd : NetworkData,
      nd.MaxValue < goMax (maxInSlice nd.RxData) (maxInSlice nd.TxData) →
      nd.MaxValue ≤ (updateNetworkMaxValue nd).MaxValue) ∧
    (∀ dd : DiskData,
      dd.MaxValue < goMax (maxInSlice dd.ReadData) (maxInSlice dd.WriteData) →
      dd.MaxValue ≤ (updateDiskMaxValue dd).MaxValue) := by
  refine ⟨?_, ?_, updateNetworkMaxValue_floor, updateDiskMaxValue_floor,
    updateNetworkMaxValue_mono, updateDiskMaxValue_mono⟩
  · clear hd
    induction obs generalizing nd0 with
    | nil => exact hn
    | cons o os ih => exact ih _ (updateNetworkMaxValue_floor _)
  · clear hn
    induction obs generalizing dd0 with
    | nil => exact hd
    | cons o os ih => exact ih _ (updateDiskMaxValue_floor _)

theorem scale_floor_spec_witness :
    1 / 10 ≤ (updateNetworkMaxValue
      { RxData := [0], TxData := [0], MaxValue := 1 / 10 }).MaxValue := by
  have h := scale_floor_spec [] { RxData := [0], TxData := [0], MaxValue := 1 / 10 }
    { ReadData := [], WriteData := [], MaxValue := 1 / 10 } (by norm_num) (by norm_num)
  exact h.2.2.1 _

/-! ### C7 and C8: gauge animation -/

theorem goAbs_eq_abs (x : ℚ) : goAbs x = |x| := by
  rw [goAbs]
  split
  · next h => exact (abs_of_neg h).symm
  · next h => exact (abs_of_nonneg (not_lt.mp h)).symm

theorem animStep_snap {s t c : ℚ} (h : goAbs (t - c) < 1 / 2) :
    animStep s t c = t := by
  rw [animStep, if_pos h]

theorem animStep_move {s t c : ℚ} (h : ¬ goAbs (t - c) < 1 / 2) :
    animStep s t c = c + (t - c) * s := by
  rw [animStep, if_neg h]

theorem animStep_self (s t : ℚ) : animStep s t t = t := by
  apply animStep_snap
  rw [sub_self, goAbs]
  norm_num

theorem anim_geom (s t c : ℚ) (n : ℕ) :
    (animStep s t)^[n] c = t ∨
    t - (animStep s t)^[n] c = (t - c) * (1 - s) ^ n := by
  induction n with
  | zero => right; simp
  | succ k ih =>
    rw [Function.iterate_succ_apply']
    rcases ih with h | h
    · left
      rw [h]
      exact animStep_self s t
    · by_cases hs : goAbs (t - (animStep s t)^[k] c) < 1 / 2
      · left
        exact animStep_snap hs
      · right
        rw [animStep_move hs]
        have halg : t - ((animStep s t)^[k] c + (t - (animStep s t)^[k] c) * s) =
            (t - (animStep s t)^[k] c) * (1 - s) := by ring
        rw [halg, h, pow_succ]
        ring

theorem anim_converges (s t c : ℚ) (hs0 : 0 < s) (hs1 : s < 1) :
    ∃ n : ℕ, (animStep s t)^[n] c = t := by
  obtain ⟨n, hn⟩ := exists_pow_lt_of_lt_one
    (show (0 : ℚ) < 1 / (2 * (|t - c| + 1)) by positivity)
    (show (1 : ℚ) - s < 1 by linarith)
  rcases anim_geom s t c n with h | h
  · exact ⟨n, h⟩
  · refine ⟨n + 1, ?_⟩
    rw [Function.iterate_succ_apply']
    apply animStep_snap
    rw [goAbs_eq_abs, h, abs_mul, abs_pow,
      abs_of_nonneg (by linarith : (0 : ℚ) ≤ 1 - s)]
    have hmul : |t - c| * (1 - s) ^ n ≤ |t - c| * (1 / (2 * (|t - c| + 1))) :=
      mul_le_mul_of_nonneg_left hn.le (abs_nonneg _)
    have hfin : |t - c| * (1 / (2 * (|t - c| + 1))) < 1 / 2 := by
      rw [mul_one_div, div_lt_div_iff₀ (by positivity) (by norm_num)]
      nlinarith [abs_nonneg (t - c)]
    linarith

theorem anim_no_overshoot (s t c : ℚ) (_hs0 : 0 ≤ s) (hs1 : s ≤ 1) (hct : c ≤ t) :
    ∀ n : ℕ, (animStep s t)^[n] c ≤ t := by
  intro n
  induction n with
  | zero => exact hct
  | succ k ih =>
    rw [Function.iterate_succ_apply', animStep]
    split
    · exact le_refl t
    · have h1 : (t - (animStep s t)^[k] c) * s ≤ (t - (animStep s t)^[k] c) * 1 :=
        mul_le_mul_of_nonneg_left hs1 (by linarith)
      linarith

/-- C7: one animation tick snaps to the target when the absolute difference is
below 0.5 and otherwise advances by `diff * speed`; with current 0, target 80
and the configured speed 0.03 one tick yields exactly 2.4, and after enough
ticks the current value becomes exactly 80 by the snap. -/
theorem gauge_tick_spec :
    (∀ sp t c : ℚ, goAbs (t - c) < 1 / 2 → animStep sp t c = t) ∧
    (∀ sp t c : ℚ, ¬ goAbs (t - c) < 1 / 2 →
      animStep sp t c = c + (t - c) * sp) ∧
    animStep (3 / 100) 80 0 = 12 / 5 ∧
    (∃ n : ℕ, (animStep (3 / 100) 80)^[n] 0 = 80) := by
  refine ⟨fun sp t c h => animStep_snap h, fun sp t c h => animStep_move h, ?_,
    anim_converges (3 / 100) 80 0 (by norm_num) (by norm_num)⟩
  rw [animStep_move]
  · norm_num
  · rw [goAbs_eq_abs]
    norm_num

theorem gauge_tick_spec_witness :
    animStep (3 / 100) 80 0 = 12 / 5 ∧ animStep (3 / 100) 80 (399 / 5) = 80 := by
  refine ⟨gauge_tick_spec.2.2.1, gauge_tick_spec.1 (3 / 100) 80 (399 / 5) ?_⟩
  rw [goAbs_eq_abs]
  norm_num [abs_lt]

/-- C8: for any target and start in [0, 100] and any speed strictly between 0
and 1, iterating the animation step reaches the target exactly in finitely
many ticks, and when starting at or below the target no intermediate tick
ever exceeds it. -/
theorem gauge_convergence_spec (s t c : ℚ) (hs0 : 0 < s) (hs1 : s < 1)
    (_hc0 : 0 ≤ c) (_hc1 : c ≤ 100) (_ht0 : 0 ≤ t) (_ht1 : t ≤ 100) :
    (∃ n : ℕ, (animStep s t)^[n] c = t) ∧
    (c ≤ t → ∀ n : ℕ, (animStep s t)^[n] c ≤ t) :=
  ⟨anim_converges s t c hs0 hs1,
   fun hct n => anim_no_overshoot s t c hs0.le hs1.le hct n⟩

theorem gauge_convergence_spec_witness :
    (∃ n : ℕ, (animStep (1 / 2) 60)^[n] 0 = 60) ∧
    (∀ n : ℕ, (animStep (1 / 2) 60)^[n] 0 ≤ 60) := by
  have h := gauge_convergence_spec (1 / 2) 60 0 (by norm_num) (by norm_num)
    (by norm_num) (by norm_num) (by norm_num) (by norm_num)
  exact ⟨h.1, h.2 (by norm_num)⟩

theorem resize_resets_gauges_witness :
    (handleResize 200 2
        { cpuGauges := [{ CurrentPercent := 50, TargetPercent := 70 }]
          netData := { RxData := [1], TxData := [2], MaxValue := 1 }
          diskData := { ReadData := [3], WriteData := [4], MaxValue := 1 } }).cpuGauges =
      List.replicate 3 ({ CurrentPercent := 0, TargetPercent := 0 } : CPUGauge) ∧
    ([1] : List ℚ).IsSuffix (handleResize 200 2
        { cpuGauges := [{ CurrentPercent := 50, TargetPercent := 70 }]
          netData := { RxData := [1], TxData := [2], MaxValue := 1 }
          diskData := { ReadData := [3], WriteData := [4], MaxValue := 1 } }).netData.RxData := by
  have h := resize_resets_gauges 200 2
    { cpuGauges := [{ CurrentPercent := 50, TargetPercent := 70 }]
      netData := { RxData := [1], TxData := [2], MaxValue := 1 }
      diskData := { ReadData := [3], WriteData := [4], MaxValue := 1 } }
  exact ⟨h.1, h.2.1⟩

end SysGoMon
